import Mathlib

/-!
Verification of the Data Quality & Insight Engine (Report-X).

The Python source is shallowly embedded: pandas Series/DataFrame columns
become lists of optional values (a missing cell, NaN/None in pandas, is
modelled as none), floating-point arithmetic is idealised as exact rational
arithmetic over the literal thresholds of the source, and each method with
decision logic becomes a Lean function translated clause by clause from the
corresponding Python function.
-/

namespace ReportX

/-- A concrete cell value: numeric or textual (mirrors what a loaded CSV
column can hold).  Missing data is modelled as `none` around this type. -/
inductive Val where
  | num (q : ℚ)
  | str (s : String)
deriving DecidableEq

/-- One cell of a DataFrame: either missing (NaN/None) or a value. -/
abbrev Cell := Option Val

/-- One row of a DataFrame, in column order. -/
abbrev Row := List Cell

/-- Worker for `dedupFirst`: walk the list keeping each element not already
seen, accumulating the set of seen elements. -/
def dedupFirstAux {α : Type} [DecidableEq α] (seen : List α) : List α → List α
  | [] => []
  | x :: xs => if x ∈ seen then dedupFirstAux seen xs else x :: dedupFirstAux (x :: seen) xs

/-- Remove repeated elements keeping the first occurrence of each, the way
pandas `drop_duplicates` keeps the first of each group of equal rows and
`Series.unique` lists distinct values in first-appearance order. -/
def dedupFirst {α : Type} [DecidableEq α] (l : List α) : List α :=
  dedupFirstAux [] l

/-- Arithmetic mean of a list of rationals (pandas `Series.mean` over the
non-null values; the empty case never arises at call sites that guard on
length, and rational division by zero yields zero). -/
def mean (xs : List ℚ) : ℚ := xs.sum / xs.length

/-- TrendAnalyzer._detect_trend_direction (src/summarize.py): compare the
mean of the first half of the row-order values with the mean of the second
half. -/
def detectTrendDirection (xs : List ℚ) : String :=
  if xs.length < 2 then ("insufficient_data")
  else
    let mid := xs.length / 2
    let firstHalfMean := mean (xs.take mid)
    let secondHalfMean := mean (xs.drop mid)
    if secondHalfMean > firstHalfMean * (11/10) then ("increasing")
    else if secondHalfMean < firstHalfMean * (9/10) then ("decreasing")
    else ("stable")

/-- Pairs of both-present observations of two columns, as pandas pairwise
correlation uses (rows where either side is NaN are ignored). -/
def colPairsComplete (xs ys : List (Option ℚ)) : List (ℚ × ℚ) :=
  (xs.zip ys).filterMap (fun p =>
    match p with
    | (some a, some b) => some (a, b)
    | _ => none)

/-- n·Σxy − Σx·Σy, the Pearson covariance numerator scaled by n². -/
def scaledCov (ps : List (ℚ × ℚ)) : ℚ :=
  (ps.length : ℚ) * (ps.map (fun p => p.1 * p.2)).sum
    - (ps.map Prod.fst).sum * (ps.map Prod.snd).sum

/-- n·Σq² − (Σq)², the Pearson variance term scaled by n². -/
def scaledVar (qs : List ℚ) : ℚ :=
  (qs.length : ℚ) * (qs.map (fun q => q * q)).sum - qs.sum * qs.sum

/-- Strength label of one column pair when the Pearson coefficient r
satisfies abs r > 0.7, else none.  Since r = cov/sqrt(varX·varY), the
comparison abs r > 0.7 is carried out in exact rational arithmetic as
100·cov² > 49·varX·varY, and the sign of r is the sign of cov; this keeps
the embedding executable without square roots. -/
def strongStrength? (xs ys : List (Option ℚ)) : Option String :=
  let ps := colPairsComplete xs ys
  let c := scaledCov ps
  if 100 * (c * c) > 49 * scaledVar (ps.map Prod.fst) * scaledVar (ps.map Prod.snd) then
    some (if c > 0 then ("strong positive") else ("strong negative"))
  else none

/-- All unordered pairs of a list, first index before second, in the order
of the double loop of TrendAnalyzer._analyze_correlations. -/
def pairsOf {α : Type} : List α → List (α × α)
  | [] => []
  | x :: xs => xs.map (fun y => (x, y)) ++ pairsOf xs

/-- TrendAnalyzer._analyze_correlations (src/summarize.py): empty when there
are fewer than two numeric columns, otherwise the strong pairs keyed by the
joined column names.  The stored coefficient only feeds literal action text
downstream, so each retained pair is represented by its strength label. -/
def analyzeCorrelations (numericCols : List (String × List (Option ℚ))) :
    List (String × String) :=
  if numericCols.length < 2 then []
  else
    (pairsOf numericCols).filterMap (fun pq =>
      (strongStrength? pq.1.2 pq.2.2).map (fun s => (pq.1.1 ++ (" & ") ++ pq.2.1, s)))

/-- Result of the linear forecast of PredictiveInsights.simple_forecast:
the fitted least-squares line and the predicted values. -/
structure ForecastResult where
  slope : ℚ
  intercept : ℚ
  predictions : List ℚ
deriving DecidableEq

/-- PredictiveInsights.simple_forecast (src/predictive_insight.py): drop
nulls; with fewer than 10 points return no forecast and the explanatory
message; otherwise fit ordinary least squares on positions 0..n−1 (the
closed form of the sklearn LinearRegression fit) and predict the next
`periods` positions.  The success-branch insight text is literal template
copy and is abbreviated here. -/
def simpleForecast (cells : List (Option ℚ)) (periods : ℕ) :
    Option ForecastResult × String :=
  let data := cells.filterMap id
  if data.length < 10 then (none, ("Need at least 10 data points for forecasting"))
  else
    let n := data.length
    let xs : List ℚ := (List.range n).map (fun i => (i : ℚ))
    let xbar := mean xs
    let ybar := mean data
    let sxy := ((xs.zip data).map (fun p => (p.1 - xbar) * (p.2 - ybar))).sum
    let sxx := (xs.map (fun x => (x - xbar) * (x - xbar))).sum
    let slope := sxy / sxx
    let intercept := ybar - slope * xbar
    let preds := (List.range periods).map (fun k => intercept + slope * ((n : ℚ) + (k : ℚ)))
    (some { slope := slope, intercept := intercept, predictions := preds },
     ("Forecast Summary"))

/-- A raw loaded column as DataProcessor.detect_column_types sees it: the
pandas storage dtype test (pd.api.types.is_numeric_dtype) and the
to_datetime parse outcome are facts about the external pandas parser and
are carried as fields; the cells are the column values in row order. -/
structure RawColumn where
  numericDtype : Bool
  parsesAsDatetime : Bool
  cells : List Cell
deriving DecidableEq

/-- Python x == int(x) with int() truncating toward zero: an exact rational
equals its own truncation exactly when it is an integer value, i.e. its
canonical denominator is 1. -/
def valIsIntegral : Val → Bool
  | .num q => q.den == 1
  | .str _ => false

/-- Python str.lower(), character-wise lowercasing. -/
def strLower (s : String) : String := String.mk (s.data.map Char.toLower)

/-- Python str(value).lower() as applied by detect_column_types to the
non-null values of a non-numeric column. -/
def valToLowerStr : Val → String
  | .num q => strLower (toString q)
  | .str s => strLower s

/-- The boolean token set of detect_column_types. -/
def boolTokens : List String :=
  ["true", "false", "yes", "no", "y", "n", "1", "0", "t", "f"]

/-- The non-null values of a column (pandas dropna). -/
def nonNullCells (c : RawColumn) : List Val := c.cells.filterMap id

/-- pandas Series.nunique: the number of distinct non-null values. -/
def uniqueCount (c : RawColumn) : ℕ := (dedupFirst (nonNullCells c)).length

/-- len(df): the number of rows of the frame, which equals the length of
any of its columns. -/
def rowCount (c : RawColumn) : ℕ := c.cells.length

/-- DataProcessor.detect_column_types (src/data_processor.py), decision for
one column, first matching rule winning: all-null, numeric dtype
(integer-valued with the low-cardinality reclassification, else float),
datetime parse, boolean token set, then the categorical/text cardinality
split.  The literal float thresholds 20 and 0.05 become 20 and 1/20. -/
def detectColumnType (c : RawColumn) : String :=
  if (nonNullCells c).isEmpty then ("unknown")
  else if c.numericDtype then
    if (nonNullCells c).all valIsIntegral then
      if uniqueCount c ≤ 20 ∧ ((uniqueCount c : ℚ) / (rowCount c : ℚ)) < 1/20 then
        ("categorical")
      else ("integer")
    else ("float")
  else if c.parsesAsDatetime then ("datetime")
  else if ((nonNullCells c).map valToLowerStr).all (fun s => s ∈ boolTokens) then
    ("boolean")
  else if uniqueCount c ≤ 20 ∨ ((uniqueCount c : ℚ) / (rowCount c : ℚ)) < 1/20 then
    ("categorical")
  else ("text")

/-- Concrete 41-row numeric column for the type-inference witness: forty
ones and one two, so 2 distinct integer values over 41 rows. -/
def c3ColNum : RawColumn :=
  { numericDtype := true, parsesAsDatetime := false,
    cells := List.replicate 40 (some (Val.num 1)) ++ [some (Val.num 2)] }

/-- Concrete 21-row text column for the type-inference witness: 21 distinct
non-boolean strings. -/
def c3ColText : RawColumn :=
  { numericDtype := false, parsesAsDatetime := false,
    cells := (List.range 21).map (fun i => some (Val.str ((("v")) ++ toString i))) }

/-- pandas Series.quantile with the default linear interpolation, applied to
an already sorted list s of length n: with position h = p·(n−1), the result
is s[⌊h⌋] + (h − ⌊h⌋)·(s[⌊h⌋+1] − s[⌊h⌋]) (the out-of-range read of
s[⌊h⌋+1] is only multiplied by a zero fraction). -/
def quantileSorted (s : List ℚ) (p : ℚ) : ℚ :=
  let h := p * ((s.length : ℚ) - 1)
  let i := (⌊h⌋).toNat
  let lo := s.getD i 0
  let hi := s.getD (i + 1) lo
  lo + (h - (⌊h⌋ : ℚ)) * (hi - lo)

/-- pandas Series.quantile: sort, then interpolate. -/
def quantile (xs : List ℚ) (p : ℚ) : ℚ :=
  quantileSorted (xs.insertionSort (fun a b => a ≤ b)) p

/-- Per-column outlier report entry of AnomalyDetector._detect_outliers. -/
structure OutlierInfo where
  count : ℕ
  percentage : ℚ
  lower_bound : ℚ
  upper_bound : ℚ
  min_outlier : ℚ
  max_outlier : ℚ
deriving DecidableEq

/-- AnomalyDetector._detect_outliers (src/anomalies.py), one column: drop
nulls; skip an empty column; compute Q1, Q3, IQR and the fences
Q1 − 1.5·IQR, Q3 + 1.5·IQR; keep the column only when at least one value
falls strictly outside the fences, reporting count, percentage and the
extreme flagged values (min?/max? are present because the flagged list is
non-empty in that branch; the getD default is never used). -/
def outlierInfoOf (cells : List (Option ℚ)) : Option OutlierInfo :=
  let data := cells.filterMap id
  if data.length = 0 then none
  else
    let q1 := quantile data (1/4)
    let q3 := quantile data (3/4)
    let iqr := q3 - q1
    let lower := q1 - (3/2) * iqr
    let upper := q3 + (3/2) * iqr
    let outs := data.filter (fun x => x < lower ∨ x > upper)
    if outs.length = 0 then none
    else
      some { count := outs.length,
             percentage := ((outs.length : ℚ) / (data.length : ℚ)) * 100,
             lower_bound := lower,
             upper_bound := upper,
             min_outlier := (outs.min?).getD 0,
             max_outlier := (outs.max?).getD 0 }

/-- AnomalyDetector._detect_outliers over the named numeric columns, in
column order: at most the first five columns are examined, and a column
appears in the report only when its entry is produced. -/
def detectOutliers (numericCols : List (String × List (Option ℚ))) :
    List (String × OutlierInfo) :=
  (numericCols.take 5).filterMap
    (fun col => (outlierInfoOf col.2).map (fun info => (col.1, info)))

/-- DataProcessor._has_outliers (src/data_processor.py): False for fewer
than 4 non-null values, else whether any value is strictly outside the IQR
fences computed over the non-null values. -/
def hasOutliers (cells : List (Option ℚ)) : Bool :=
  let series := cells.filterMap id
  if series.length < 4 then false
  else
    let q1 := quantile series (1/4)
    let q3 := quantile series (3/4)
    let iqr := q3 - q1
    let lower := q1 - (3/2) * iqr
    let upper := q3 + (3/2) * iqr
    series.any (fun x => decide (x < lower ∨ x > upper))

/-- Concrete column for the outlier-detection witness: three zeros and one
hundred, giving Q1 = 0, Q3 = 25, fences [−37.5, 62.5] and the single
outlier 100. -/
def c4Cells : List (Option ℚ) := [some 0, some 0, some 0, some 100]

/-- The outlier report entry produced for `c4Cells`. -/
def c4Info : OutlierInfo :=
  { count := 1, percentage := 25, lower_bound := -75/2, upper_bound := 125/2,
    min_outlier := 100, max_outlier := 100 }

/-- Priority tiers of generated actions (the literal emoji-tagged priority
strings of the source reduced to their tier). -/
inductive Priority where
  | critical
  | high
  | strategic
deriving DecidableEq

/-- The priority_order sort key of generate_business_actions: critical 0,
high 1, strategic 2 (every generated action carries one of the three
priority strings, so the dict fallback 3 is never reached). -/
def priorityRank : Priority → ℕ
  | .critical => 0
  | .high => 1
  | .strategic => 2

/-- A generated business action.  Of the literal text fields of the source
record, the category (which identifies the emitting rule family) and the
priority (which drives ordering) are the two consumed by logic; the other
fields are fixed business copy. -/
structure Action where
  category : String
  priority : Priority
deriving DecidableEq

/-- Per-numeric-column trend record consumed by the Action Generator
(the output shape of TrendAnalyzer._analyze_numeric_trends). -/
structure TrendInfo where
  mean : ℚ
  median : ℚ
  std : ℚ
  min : ℚ
  max : ℚ
  range : ℚ
  trend_direction : String
  coefficient_of_variation : ℚ
deriving DecidableEq

/-- Per-categorical-column distribution record (the output shape of
TrendAnalyzer._analyze_categorical_distributions). -/
structure DistInfo where
  unique_count : ℕ
  most_common : String
  most_common_count : ℕ
  concentration : ℚ
deriving DecidableEq

/-- Rule family 1 of generate_business_actions: per-column missing-data
severity, over the per-column missing percentages in column order. -/
def rule1MissingActions (missingPct : List (String × ℚ)) : List Action :=
  missingPct.flatMap (fun cp =>
    if cp.2 > 30 then [{ category := ("Data Quality Crisis"), priority := .critical }]
    else if cp.2 > 10 then [{ category := ("Data Quality Issue"), priority := .high }]
    else [])

/-- Rule family 2: high-variability columns (coefficient of variation
above 100). -/
def rule2VariabilityActions (trends : List (String × TrendInfo)) : List Action :=
  trends.flatMap (fun ct =>
    if ct.2.coefficient_of_variation > 100 then
      [{ category := ("High Risk Alert"), priority := .critical }]
    else [])

/-- Rule family 3: declining trend columns. -/
def rule3DecliningActions (trends : List (String × TrendInfo)) : List Action :=
  trends.flatMap (fun ct =>
    if ct.2.trend_direction = ("decreasing") then
      [{ category := ("Performance Alert"), priority := .critical }]
    else [])

/-- Rule family 4: growing trend columns. -/
def rule4GrowthActions (trends : List (String × TrendInfo)) : List Action :=
  trends.flatMap (fun ct =>
    if ct.2.trend_direction = ("increasing") then
      [{ category := ("Growth Opportunity"), priority := .strategic }]
    else [])

/-- Rule family 5: stable low-variability columns. -/
def rule5StableActions (trends : List (String × TrendInfo)) : List Action :=
  trends.flatMap (fun ct =>
    if ct.2.trend_direction = ("stable") ∧ ct.2.coefficient_of_variation < 10 then
      [{ category := ("Planning Asset"), priority := .strategic }]
    else [])

/-- Rule family 6 for one categorical column: concentration above 70 yields
the high-priority concentration-risk action, below 20 the strategic
balanced-portfolio action, nothing in between. -/
def rule6ColActions (info : DistInfo) : List Action :=
  if info.concentration > 70 then
    [{ category := ("Concentration Risk"), priority := .high }]
  else if info.concentration < 20 then
    [{ category := ("Balanced Portfolio"), priority := .strategic }]
  else []

/-- Rule family 6 over the analyzed categorical columns. -/
def rule6ConcentrationActions (dists : List (String × DistInfo)) : List Action :=
  dists.flatMap (fun cd => rule6ColActions cd.2)

/-- Rule family 7: strong positive correlation pairs (keyed pair name and
strength label, as produced by _analyze_correlations). -/
def rule7CorrelationActions (correlations : List (String × String)) : List Action :=
  correlations.flatMap (fun ps =>
    if ps.2 = ("strong positive") then
      [{ category := ("Strategic Insight"), priority := .strategic }]
    else [])

/-- The quality score rule family 8 actually computes
(src/business_insight.py lines 161-165): completeness percentage minus ten
times the duplicate-row fraction.  No uniqueness term appears here. -/
def rule8QualityScore (totalRows totalCols missingCells duplicateRows : ℕ) : ℚ :=
  (((totalRows * totalCols : ℕ) : ℚ) - (missingCells : ℚ)) /
      ((totalRows * totalCols : ℕ) : ℚ) * 100
    - ((duplicateRows : ℚ) / (totalRows : ℚ)) * 10

/-- Rule family 8: the governance action below 80, the excellence action at
90 and above, nothing in between. -/
def rule8QualityActions (totalRows totalCols missingCells duplicateRows : ℕ) :
    List Action :=
  if rule8QualityScore totalRows totalCols missingCells duplicateRows < 80 then
    [{ category := ("Data Governance Crisis"), priority := .critical }]
  else if rule8QualityScore totalRows totalCols missingCells duplicateRows ≥ 90 then
    [{ category := ("Data Excellence"), priority := .strategic }]
  else []

/-- The quality-score formula the claim asserts for rule family 8, written
from the claim's words (0.6·completeness + 0.4·uniqueness, minus
10·duplicate-rate) for comparison with `rule8QualityScore`.  The 0.6/0.4
weighting exists in the source only in the executive-summary path
(_calculate_quality_score), which has no duplicate-rate penalty and does
not gate rule family 8. -/
def claimQualityScore (totalRows totalCols missingCells duplicateRows : ℕ) : ℚ :=
  (3/5) * ((((totalRows * totalCols : ℕ) : ℚ) - (missingCells : ℚ)) /
      ((totalRows * totalCols : ℕ) : ℚ) * 100) +
    (2/5) * (((totalRows : ℚ) - (duplicateRows : ℚ)) / (totalRows : ℚ) * 100) -
    10 * ((duplicateRows : ℚ) / (totalRows : ℚ))

/-- Everything generate_business_actions reads from the analyzers and from
the working frame: per-column missing percentages, numeric trends,
categorical distributions, strong correlation pairs, and the frame-level
counts feeding rule family 8. -/
structure AnalysisInput where
  missingPct : List (String × ℚ)
  numericTrends : List (String × TrendInfo)
  catDistributions : List (String × DistInfo)
  correlations : List (String × String)
  totalRows : ℕ
  totalCols : ℕ
  missingCells : ℕ
  duplicateRows : ℕ

/-- The generation phase of generate_business_actions: the eight rule
families applied in their fixed source order, results appended in that
order. -/
def generatedActions (inp : AnalysisInput) : List Action :=
  rule1MissingActions inp.missingPct ++
  rule2VariabilityActions inp.numericTrends ++
  rule3DecliningActions inp.numericTrends ++
  rule4GrowthActions inp.numericTrends ++
  rule5StableActions inp.numericTrends ++
  rule6ConcentrationActions inp.catDistributions ++
  rule7CorrelationActions inp.correlations ++
  rule8QualityActions inp.totalRows inp.totalCols inp.missingCells inp.duplicateRows

/-- The sort order of actions.sort(key priority_order.get): compare the
numeric rank of the priorities. -/
def actLE (a b : Action) : Prop := priorityRank a.priority ≤ priorityRank b.priority

instance : DecidableRel actLE := fun a b =>
  Nat.decLe (priorityRank a.priority) (priorityRank b.priority)

instance : IsTotal Action actLE := ⟨fun x y => Nat.le_total (priorityRank x.priority) (priorityRank y.priority)⟩

instance : IsTrans Action actLE := ⟨fun _ _ _ => Nat.le_trans⟩

/-- Python list.sort on the rank key: a stable comparison sort, modelled by
insertion sort (stable, like Timsort). -/
def sortActions (l : List Action) : List Action := l.insertionSort actLE

/-- BusinessInsightGenerator.generate_business_actions
(src/business_insight.py): emit the eight rule families in order, then
stable-sort the whole list by priority tier. -/
def generateBusinessActions (inp : AnalysisInput) : List Action :=
  sortActions (generatedActions inp)

/-- One fold step in locating the most frequent value: keep the candidate
with the larger count, preferring the earlier one on ties. -/
def bestOf {α : Type} [DecidableEq α] (vals : List α) (best : α × ℕ) (w : α) : α × ℕ :=
  if vals.count w > best.2 then (w, vals.count w) else best

/-- pandas Series.value_counts().index[0] and .iloc[0], and Series.mode()[0]:
the most frequent non-null value with its count, none when there are no
non-null values (value_counts indexing would raise there, and mode() is
empty).  Among equally frequent values the first-seen one is taken (pandas
leaves the value_counts tie order unspecified and sorts mode()). -/
def mostCommon? {α : Type} [DecidableEq α] (vals : List α) : Option (α × ℕ) :=
  match dedupFirst vals with
  | [] => none
  | v :: vs => some (vs.foldl (bestOf vals) (v, vals.count v))

/-- TrendAnalyzer._analyze_categorical_distributions (src/summarize.py),
one column: distinct non-null count, most common value and its count, and
concentration = most-common count / len(df) × 100, where len(df) equals
the column length with nulls included. -/
def catDistOf (cells : List (Option String)) : Option DistInfo :=
  let vals := cells.filterMap id
  match mostCommon? vals with
  | none => none
  | some vc =>
    some { unique_count := (dedupFirst vals).length,
           most_common := vc.1,
           most_common_count := vc.2,
           concentration := ((vc.2 : ℚ) / (cells.length : ℚ)) * 100 }

/-- _analyze_categorical_distributions over the categorical columns in
column order: only the first three are analyzed. -/
def analyzeCategoricalDistributions
    (catCols : List (String × List (Option String))) : List (String × DistInfo) :=
  (catCols.take 3).filterMap
    (fun col => (catDistOf col.2).map (fun i => (col.1, i)))

/-- Concrete column for the concentration witness: four nulls, five
occurrences of one value and one of another, so the most common value
covers 5 of 6 non-null entries (above 70 percent) but only 5 of 10 rows
(at most 70 percent). -/
def c10Cells : List (Option String) :=
  List.replicate 4 none ++ List.replicate 5 (some ("a")) ++ [some ("b")]

/-- The distribution record produced for `c10Cells`. -/
def c10Info : DistInfo :=
  { unique_count := 2, most_common := ("a"), most_common_count := 5,
    concentration := 50 }

/-- The working DataFrame as the Cleaning Engine sees it: column names and
rows (each row holds one cell per column, in column order). -/
structure Dataset where
  colNames : List String
  rows : List Row
deriving DecidableEq

/-- df.duplicated().sum(): the number of rows equal to some earlier row. -/
def dupRowCount (rows : List Row) : ℕ := rows.length - (dedupFirst rows).length

/-- The cells of column i, in row order. -/
def colCells (rows : List Row) (i : ℕ) : List Cell :=
  rows.map (fun r => r.getD i none)

/-- The numeric values among some cells (dropna on a numeric column). -/
def cellNums (cells : List Cell) : List ℚ :=
  cells.filterMap (fun c =>
    match c with
    | some (Val.num q) => some q
    | _ => none)

/-- Null count of column i. -/
def colNullCount (rows : List Row) (i : ℕ) : ℕ :=
  ((colCells rows i).filter (fun c => c = none)).length

/-- np.number dtype proxy for a stored column: no textual cells. -/
def colIsNumericDtype (rows : List Row) (i : ℕ) : Bool :=
  (colCells rows i).all (fun c =>
    match c with
    | some (Val.str _) => false
    | _ => true)

/-- Remove the elements at the given positions, keeping order. -/
def removeIdxs {β : Type} (l : List β) (idxs : List ℕ) : List β :=
  (l.enum.filter (fun p => p.1 ∉ idxs)).map Prod.snd

/-- drop_cols: the indices of columns whose null fraction exceeds the
threshold. -/
def colsToDrop (d : Dataset) (threshold : ℚ) : List ℕ :=
  (List.range d.colNames.length).filter
    (fun i => ((colNullCount d.rows i : ℚ) / (d.rows.length : ℚ)) > threshold)

/-- Drop whole columns by position. -/
def dropColumns (d : Dataset) (idxs : List ℕ) : Dataset :=
  { colNames := removeIdxs d.colNames idxs,
    rows := d.rows.map (fun r => removeIdxs r idxs) }

/-- drop_rows: df.dropna(), keep only rows without nulls. -/
def dropRowsWithNull (rows : List Row) : List Row :=
  rows.filter (fun r => r.all (fun c => c.isSome))

/-- fill_mean: fill the nulls of every numeric-dtype column with that
column's mean over its non-null values. -/
def fillMeanStep (d : Dataset) : Dataset :=
  { d with rows := d.rows.map (fun r => r.enum.map (fun p =>
      if colIsNumericDtype d.rows p.1 ∧ p.2 = none
      then some (Val.num (mean (cellNums (colCells d.rows p.1)))) else p.2)) }

/-- fill_mode: fill the nulls of every column having a non-empty mode with
that column's most frequent value. -/
def fillModeStep (d : Dataset) : Dataset :=
  { d with rows := d.rows.map (fun r => r.enum.map (fun p =>
      if p.2 = none then
        match mostCommon? ((colCells d.rows p.1).filterMap id) with
        | some vc => some vc.1
        | none => none
      else p.2)) }

/-- remove_outliers, one column: with at least 4 non-null numeric values,
replace each value strictly outside the IQR fences by the column median
(pandas median is the 0.5 quantile); other cells are untouched. -/
def outlierReplaceCell (cells : List Cell) (c : Cell) : Cell :=
  let data := cellNums cells
  if data.length < 4 then c
  else
    let q1 := quantile data (1/4)
    let q3 := quantile data (3/4)
    let iqr := q3 - q1
    let lower := q1 - (3/2) * iqr
    let upper := q3 + (3/2) * iqr
    match c with
    | some (Val.num q) =>
      if q < lower ∨ q > upper then some (Val.num (quantile data (1/2))) else c
    | _ => c

/-- remove_outliers, one column: how many values get replaced. -/
def outlierColReplacedCount (cells : List Cell) : ℕ :=
  let data := cellNums cells
  if data.length < 4 then 0
  else
    let q1 := quantile data (1/4)
    let q3 := quantile data (3/4)
    let iqr := q3 - q1
    let lower := q1 - (3/2) * iqr
    let upper := q3 + (3/2) * iqr
    (data.filter (fun q => q < lower ∨ q > upper)).length

/-- Step 1 of clean_data: drop exact duplicate rows when requested and any
exist, logging the step. -/
def dedupStep (removeDuplicates : Bool) (d : Dataset) : Dataset × List String :=
  if removeDuplicates then
    let dc := dupRowCount d.rows
    if dc > 0 then
      ({ d with rows := dedupFirst d.rows },
       [("Removed ") ++ toString dc ++ (" duplicate rows")])
    else (d, [])
  else (d, [])

/-- Step 2 of clean_data: the selected missing-value strategy (any other
string, e.g. none, skips the step).  Step messages are abbreviated to their
fixed prefix text. -/
def missingStep (handleMissing : String) (threshold : ℚ) (d : Dataset) :
    Dataset × List String :=
  if handleMissing = ("drop_cols") then
    let idxs := colsToDrop d threshold
    if idxs ≠ [] then
      (dropColumns d idxs,
       [("Dropped ") ++ toString idxs.length ++ (" columns with too much missing data")])
    else (d, [])
  else if handleMissing = ("drop_rows") then
    let kept := dropRowsWithNull d.rows
    if kept.length < d.rows.length then
      ({ d with rows := kept },
       [("Dropped ") ++ toString (d.rows.length - kept.length) ++ (" rows with missing values")])
    else (d, [])
  else if handleMissing = ("fill_mean") then
    (fillMeanStep d, [("Filled missing numeric values with column means")])
  else if handleMissing = ("fill_mode") then
    (fillModeStep d, [("Filled missing values with most common values")])
  else (d, [])

/-- Step 3 of clean_data: optional outlier replacement over the columns the
pre-cleaning type pass classified numeric, logging when anything changed. -/
def outlierStep (removeOutliers : Bool) (numericTypeCols : List String)
    (d : Dataset) : Dataset × List String :=
  if removeOutliers then
    let isNum := fun i => (d.colNames.getD i ("")) ∈ numericTypeCols
    let replaced := ((List.range d.colNames.length).filter isNum).foldl
      (fun acc i => acc + outlierColReplacedCount (colCells d.rows i)) 0
    let d2 : Dataset :=
      { d with rows := d.rows.map (fun r => r.enum.map (fun p =>
          if isNum p.1 then outlierReplaceCell (colCells d.rows p.1) p.2 else p.2)) }
    if replaced > 0 then
      (d2, [("Replaced ") ++ toString replaced ++ (" outlier values with median")])
    else (d2, [])
  else (d, [])

/-- The cleaning report of clean_data. -/
structure CleaningReport where
  original_rows : ℕ
  original_cols : ℕ
  steps_taken : List String
  cleaned_rows : ℕ
  cleaned_cols : ℕ
  rows_removed : ℕ
  cols_removed : ℕ
deriving DecidableEq

/-- DataProcessor.clean_data (src/data_processor.py): duplicates, then the
missing-value strategy, then optional outlier replacement, in that fixed
order, returning the new frame and the report.  The subsequent re-run of
type inference and profiling recomputes derived state from the returned
frame and does not change it. -/
def cleanData (removeDuplicates : Bool) (handleMissing : String)
    (missingThreshold : ℚ) (removeOutliers : Bool)
    (numericTypeCols : List String) (ds : Dataset) : Dataset × CleaningReport :=
  let s1 := dedupStep removeDuplicates ds
  let s2 := missingStep handleMissing missingThreshold s1.1
  let s3 := outlierStep removeOutliers numericTypeCols s2.1
  (s3.1,
   { original_rows := ds.rows.length,
     original_cols := ds.colNames.length,
     steps_taken := s1.2 ++ s2.2 ++ s3.2,
     cleaned_rows := s3.1.rows.length,
     cleaned_cols := s3.1.colNames.length,
     rows_removed := ds.rows.length - s3.1.rows.length,
     cols_removed := ds.colNames.length - s3.1.colNames.length })

/-- A named raw column of a loaded frame. -/
structure DfCol where
  name : String
  col : RawColumn
deriving DecidableEq

/-- A loaded DataFrame in column-major view, as load_data handles it. -/
structure Df where
  cols : List DfCol
deriving DecidableEq

/-- len(df): the uniform row count (length of the first column). -/
def Df.rowCount (d : Df) : ℕ :=
  ((d.cols.head?).map (fun c => c.col.cells.length)).getD 0

/-- The row-major view of the frame, for whole-row operations. -/
def Df.rowsView (d : Df) : List Row :=
  (List.range d.rowCount).map (fun i => d.cols.map (fun c => c.col.cells.getD i none))

/-- pandas df.empty: true when either axis has length zero. -/
def Df.isEmptyDf (d : Df) : Bool := d.cols.isEmpty || d.rowCount == 0

/-- The column name normalization of load_data: strip, spaces to
underscores, lowercase. -/
def cleanColName (s : String) : String := strLower ((s.trim).replace (" ") ("_"))

/-- DataProcessor.detect_column_types over a loaded frame. -/
def detectColumnTypesDf (d : Df) : List (String × String) :=
  d.cols.map (fun c => (c.name, detectColumnType c.col))

/-- The DatasetProfile of DataProcessor.profile_data, restricted to the
frame-level fields and the per-column missing counts; the per-column
statistics (e.g. has_outliers via `hasOutliers`) are modelled separately. -/
structure DatasetProfile where
  row_count : ℕ
  column_count : ℕ
  missing_values : List (String × ℕ)
  duplicate_rows : ℕ
  column_types : List (String × String)
deriving DecidableEq

/-- DataProcessor.profile_data (frame-level part). -/
def profileData (d : Df) (types : List (String × String)) : DatasetProfile :=
  { row_count := d.rowCount,
    column_count := d.cols.length,
    missing_values := d.cols.map (fun c => (c.name, c.col.cells.count none)),
    duplicate_rows := dupRowCount d.rowsView,
    column_types := types }

/-- The mutable fields of DataProcessor touched by load_data. -/
structure ProcessorState where
  original_df : Option Df
  processed_df : Option Df
  column_datatypes : List (String × String)
  data_profile : Option DatasetProfile
  cleaning_steps : List String
deriving DecidableEq

/-- What the pandas read_csv cascade of load_data hands back: no file, a
raised parse/decode error (empty file, undecodable encoding, unparseable
delimiter), or a parsed frame. -/
inductive UploadOutcome where
  | noFile
  | parseFailure (msg : String)
  | parsed (df : Df)

/-- DataProcessor.load_data (src/data_processor.py): on any exception the
error is reported as the prefixed message and the state is untouched; a
parsed frame is validated (df.empty, zero columns) before the column names
are normalized, both frame references are stored, and types and profile
are computed; only then is the load step logged. -/
def loadData (st : ProcessorState) (inp : UploadOutcome) :
    ProcessorState × Option Df × Option String :=
  match inp with
  | .noFile => (st, none, none)
  | .parseFailure msg => (st, none, some (("Error loading CSV: ") ++ msg))
  | .parsed df =>
    if df.isEmptyDf then
      (st, none, some (("Error loading CSV: ") ++ ("CSV file is empty")))
    else if df.cols.length = 0 then
      (st, none, some (("Error loading CSV: ") ++ ("CSV has no columns")))
    else
      let df2 : Df := { cols := df.cols.map (fun c => { c with name := cleanColName c.name }) }
      let types := detectColumnTypesDf df2
      let profile := profileData df2 types
      ({ original_df := some df2, processed_df := some df2,
         column_datatypes := types, data_profile := some profile,
         cleaning_steps := st.cleaning_steps ++ [("Data Loaded")] },
       some df2, none)

/-- An initial processor state for the load-failure witness. -/
def c9State : ProcessorState :=
  { original_df := none, processed_df := none, column_datatypes := [],
    data_profile := none, cleaning_steps := [] }

/-- A parsed but empty frame (e.g. a header-only CSV), for the witness. -/
def c9EmptyDf : Df := { cols := [] }

theorem mem_dedupFirstAux {α : Type} [DecidableEq α] (l : List α) :
    ∀ (seen : List α) (x : α), x ∈ dedupFirstAux seen l ↔ (x ∈ l ∧ x ∉ seen) := by
  induction l with
  | nil => intro seen x; simp [dedupFirstAux]
  | cons a as ih =>
    intro seen x
    rw [dedupFirstAux]
    by_cases ha : a ∈ seen
    · rw [if_pos ha, ih]
      constructor
      · rintro ⟨h1, h2⟩
        exact ⟨List.mem_cons_of_mem _ h1, h2⟩
      · rintro ⟨h1, h2⟩
        rcases List.mem_cons.mp h1 with rfl | h1
        · exact absurd ha h2
        · exact ⟨h1, h2⟩
    · rw [if_neg ha]
      constructor
      · intro h
        rcases List.mem_cons.mp h with rfl | h
        · exact ⟨List.mem_cons_self _ _, ha⟩
        · have h3 := (ih _ _).mp h
          exact ⟨List.mem_cons_of_mem _ h3.1, fun hx => h3.2 (List.mem_cons_of_mem _ hx)⟩
      · rintro ⟨h1, h2⟩
        rcases List.mem_cons.mp h1 with rfl | h1
        · exact List.mem_cons_self _ _
        · by_cases hxa : x = a
          · subst hxa
            exact List.mem_cons_self _ _
          · refine List.mem_cons_of_mem _ ((ih _ _).mpr ⟨h1, ?_⟩)
            intro hx
            rcases List.mem_cons.mp hx with h4 | h4
            · exact hxa h4
            · exact h2 h4

theorem mem_dedupFirst {α : Type} [DecidableEq α] {l : List α} {x : α} :
    x ∈ dedupFirst l ↔ x ∈ l := by
  rw [dedupFirst, mem_dedupFirstAux]
  simp

theorem nodup_dedupFirstAux {α : Type} [DecidableEq α] (l : List α) :
    ∀ seen : List α, (dedupFirstAux seen l).Nodup := by
  induction l with
  | nil => intro seen; simp [dedupFirstAux]
  | cons a as ih =>
    intro seen
    rw [dedupFirstAux]
    by_cases ha : a ∈ seen
    · rw [if_pos ha]
      exact ih seen
    · rw [if_neg ha]
      refine List.Nodup.cons ?_ (ih _)
      intro hmem
      have h3 := (mem_dedupFirstAux as _ a).mp hmem
      exact h3.2 (List.mem_cons_self _ _)

theorem nodup_dedupFirst {α : Type} [DecidableEq α] (l : List α) :
    (dedupFirst l).Nodup :=
  nodup_dedupFirstAux l []

theorem dedupFirstAux_eq_self {α : Type} [DecidableEq α] (l : List α) :
    ∀ seen : List α, l.Nodup → (∀ x ∈ l, x ∉ seen) → dedupFirstAux seen l = l := by
  induction l with
  | nil => intro seen _ _; rfl
  | cons a as ih =>
    intro seen hnd hdisj
    rcases List.nodup_cons.mp hnd with ⟨hna, hnd2⟩
    have hd2 : ∀ x ∈ as, x ∉ a :: seen := by
      intro x hx hmem
      rcases List.mem_cons.mp hmem with rfl | h
      · exact hna hx
      · exact hdisj x (List.mem_cons_of_mem _ hx) h
    rw [dedupFirstAux, if_neg (hdisj a (List.mem_cons_self _ _)), ih (a :: seen) hnd2 hd2]

theorem dedupFirst_eq_self_of_nodup {α : Type} [DecidableEq α] {l : List α}
    (h : l.Nodup) : dedupFirst l = l :=
  dedupFirstAux_eq_self l [] h (fun x _ hx => (List.not_mem_nil x) hx)

theorem dedupFirst_idem {α : Type} [DecidableEq α] (l : List α) :
    dedupFirst (dedupFirst l) = dedupFirst l :=
  dedupFirst_eq_self_of_nodup (nodup_dedupFirst l)

theorem length_dedupFirstAux_le {α : Type} [DecidableEq α] (l : List α) :
    ∀ seen : List α, (dedupFirstAux seen l).length ≤ l.length := by
  induction l with
  | nil => intro seen; simp [dedupFirstAux]
  | cons a as ih =>
    intro seen
    rw [dedupFirstAux]
    by_cases ha : a ∈ seen
    · rw [if_pos ha]
      exact le_trans (ih seen) (Nat.le_succ _)
    · rw [if_neg ha]
      simpa using Nat.succ_le_succ (ih (a :: seen))

theorem length_dedupFirst_le {α : Type} [DecidableEq α] (l : List α) :
    (dedupFirst l).length ≤ l.length :=
  length_dedupFirstAux_le l []

/-- C5, counterexample: the claim states trend_direction is "decreasing"
exactly when the second-half mean is below 0.9 times the first-half mean,
but on the series [−10, −10.5] that condition holds (−10.5 < −9) while the
code takes the increasing branch first (−10.5 > −11), so the result is
"increasing", not "decreasing". -/
theorem c5_trend_direction_counterexample :
    mean ([(-10 : ℚ), -21/2].drop (([(-10 : ℚ), -21/2].length) / 2))
        < mean ([(-10 : ℚ), -21/2].take (([(-10 : ℚ), -21/2].length) / 2)) * (9/10) ∧
    detectTrendDirection [(-10 : ℚ), -21/2] = ("increasing") := by
  have hinc : mean ([(-10 : ℚ), -21/2].drop (([(-10 : ℚ), -21/2].length) / 2))
      > mean ([(-10 : ℚ), -21/2].take (([(-10 : ℚ), -21/2].length) / 2)) * (11/10) := by
    show ((-21/2 : ℚ) + 0) / 1 > ((-10 : ℚ) + 0) / 1 * (11/10)
    norm_num
  constructor
  · show ((-21/2 : ℚ) + 0) / 1 < ((-10 : ℚ) + 0) / 1 * (9/10)
    norm_num
  · have hlen : ¬ ([(-10 : ℚ), -21/2].length < 2) := by norm_num
    simp only [detectTrendDirection, if_neg hlen]
    rw [if_pos hinc]

/-- C5, amended: for a numeric column with at least 2 non-null values,
trend_direction is "increasing" iff the second-half mean exceeds 1.1 times
the first-half mean; "decreasing" iff it does not and the second-half mean
is below 0.9 times the first-half mean; "stable" otherwise; with fewer than
2 values it is "insufficient_data"; and a column whose second-half mean is
15 percent above its first-half mean (1.15 times it and strictly greater)
yields "increasing". -/
theorem c5_trend_direction_amended (xs : List ℚ) :
    (xs.length < 2 → detectTrendDirection xs = ("insufficient_data")) ∧
    (2 ≤ xs.length →
      ((detectTrendDirection xs = ("increasing") ↔
          mean (xs.drop (xs.length / 2)) > mean (xs.take (xs.length / 2)) * (11/10)) ∧
       (detectTrendDirection xs = ("decreasing") ↔
          (¬ mean (xs.drop (xs.length / 2)) > mean (xs.take (xs.length / 2)) * (11/10) ∧
            mean (xs.drop (xs.length / 2)) < mean (xs.take (xs.length / 2)) * (9/10))) ∧
       (detectTrendDirection xs = ("stable") ↔
          (¬ mean (xs.drop (xs.length / 2)) > mean (xs.take (xs.length / 2)) * (11/10) ∧
           ¬ mean (xs.drop (xs.length / 2)) < mean (xs.take (xs.length / 2)) * (9/10))) ∧
       (mean (xs.drop (xs.length / 2)) = mean (xs.take (xs.length / 2)) * (23/20) →
        mean (xs.take (xs.length / 2)) < mean (xs.drop (xs.length / 2)) →
        detectTrendDirection xs = ("increasing")))) := by
  constructor
  · intro h
    simp only [detectTrendDirection, if_pos h]
  · intro h
    have h2 : ¬ xs.length < 2 := by omega
    simp only [detectTrendDirection, if_neg h2]
    set fh := mean (xs.take (xs.length / 2)) with hfh
    set sh := mean (xs.drop (xs.length / 2)) with hsh
    by_cases h1 : sh > fh * (11/10)
    · rw [if_pos h1]
      refine ⟨⟨fun _ => h1, fun _ => rfl⟩, ?_, ?_, fun _ _ => rfl⟩
      · constructor
        · intro hc; exact absurd hc (by decide)
        · intro hc; exact absurd h1 hc.1
      · constructor
        · intro hc; exact absurd hc (by decide)
        · intro hc; exact absurd h1 hc.1
    · rw [if_neg h1]
      by_cases h3 : sh < fh * (9/10)
      · rw [if_pos h3]
        refine ⟨?_, ⟨fun _ => ⟨h1, h3⟩, fun _ => rfl⟩, ?_, ?_⟩
        · constructor
          · intro hc; exact absurd hc (by decide)
          · intro hc; exact absurd hc h1
        · constructor
          · intro hc; exact absurd hc (by decide)
          · intro hc; exact absurd h3 hc.2
        · intro he hlt
          exfalso
          apply h1
          have hfpos : 0 < fh := by nlinarith
          rw [he]; nlinarith
      · rw [if_neg h3]
        refine ⟨?_, ?_, ⟨fun _ => ⟨h1, h3⟩, fun _ => rfl⟩, ?_⟩
        · constructor
          · intro hc; exact absurd hc (by decide)
          · intro hc; exact absurd hc h1
        · constructor
          · intro hc; exact absurd hc (by decide)
          · intro hc; exact absurd hc.2 h3
        · intro he hlt
          exfalso
          apply h1
          have hfpos : 0 < fh := by nlinarith
          rw [he]; nlinarith

/-- C5, witness: on a 4-value column whose second-half mean (115) is 15
percent above its first-half mean (100), the amended theorem yields the
increasing branch, and the boundary hypotheses are satisfied concretely. -/
theorem c5_trend_direction_witness :
    detectTrendDirection [(100 : ℚ), 100, 115, 115] = ("increasing") := by
  have h := (c5_trend_direction_amended [(100 : ℚ), 100, 115, 115]).2 (by decide)
  apply h.2.2.2
  · show ((115 : ℚ) + (115 + 0)) / 2 = ((100 : ℚ) + (100 + 0)) / 2 * (23/20)
    norm_num
  · show ((100 : ℚ) + (100 + 0)) / 2 < ((115 : ℚ) + (115 + 0)) / 2
    norm_num

/-- C7: insufficient-data conditions are structured results, not errors:
trend detection on fewer than 2 points returns "insufficient_data",
correlation analysis with fewer than 2 numeric columns returns an empty
result, and forecasting with fewer than 10 non-null points returns no
forecast together with the explanatory message. -/
theorem c7_insufficient_data_structured :
    (∀ xs : List ℚ, xs.length < 2 → detectTrendDirection xs = ("insufficient_data")) ∧
    (∀ numericCols : List (String × List (Option ℚ)), numericCols.length < 2 →
      analyzeCorrelations numericCols = []) ∧
    (∀ cells : List (Option ℚ), ∀ periods : ℕ, (cells.filterMap id).length < 10 →
      simpleForecast cells periods =
        (none, ("Need at least 10 data points for forecasting"))) := by
  refine ⟨fun xs h => ?_, fun cols h => ?_, fun cells periods h => ?_⟩
  · simp only [detectTrendDirection, if_pos h]
  · simp only [analyzeCorrelations, if_pos h]
  · simp only [simpleForecast, if_pos h]

/-- C7, witness: the three insufficient-data branches at concrete inputs: a
single-point series, a single numeric column, and a column with one
non-null point. -/
theorem c7_insufficient_data_witness :
    detectTrendDirection [(5 : ℚ)] = ("insufficient_data") ∧
    analyzeCorrelations [(("a"), [some (1 : ℚ)])] = [] ∧
    simpleForecast [some (1 : ℚ), none] 5 =
      (none, ("Need at least 10 data points for forecasting")) :=
  ⟨c7_insufficient_data_structured.1 _ (by decide),
   c7_insufficient_data_structured.2.1 _ (by decide),
   c7_insufficient_data_structured.2.2 _ 5 (by decide)⟩

/-- C3: an all-numeric, not-all-null column whose non-null values all equal
their integer truncation is classified categorical exactly when it has at
most 20 distinct values and distinct-count/row-count is below 0.05, and
integer otherwise; a non-numeric, non-datetime, non-boolean, not-all-null
column is classified categorical exactly when distinct-count is at most 20
or distinct-count/row-count is below 0.05, and text otherwise. -/
theorem c3_type_inference_thresholds :
    (∀ c : RawColumn, c.numericDtype = true → nonNullCells c ≠ [] →
      (nonNullCells c).all valIsIntegral = true →
      ((detectColumnType c = ("categorical") ↔
         (uniqueCount c ≤ 20 ∧ ((uniqueCount c : ℚ) / (rowCount c : ℚ)) < 1/20)) ∧
       (detectColumnType c = ("integer") ↔
         ¬ (uniqueCount c ≤ 20 ∧ ((uniqueCount c : ℚ) / (rowCount c : ℚ)) < 1/20)))) ∧
    (∀ c : RawColumn, c.numericDtype = false → nonNullCells c ≠ [] →
      c.parsesAsDatetime = false →
      ((nonNullCells c).map valToLowerStr).all (fun s => s ∈ boolTokens) = false →
      ((detectColumnType c = ("categorical") ↔
         (uniqueCount c ≤ 20 ∨ ((uniqueCount c : ℚ) / (rowCount c : ℚ)) < 1/20)) ∧
       (detectColumnType c = ("text") ↔
         ¬ (uniqueCount c ≤ 20 ∨ ((uniqueCount c : ℚ) / (rowCount c : ℚ)) < 1/20)))) := by
  constructor
  · intro c hnum hne hint
    have hie : (nonNullCells c).isEmpty = false := by
      cases h : nonNullCells c with
      | nil => exact absurd h hne
      | cons a l => rfl
    rw [detectColumnType, hie, hnum, hint]
    simp only [Bool.false_eq_true, if_false, if_true]
    by_cases hcond : uniqueCount c ≤ 20 ∧ ((uniqueCount c : ℚ) / (rowCount c : ℚ)) < 1/20
    · rw [if_pos hcond]
      exact ⟨⟨fun _ => hcond, fun _ => rfl⟩,
             ⟨fun hc => absurd hc (by decide), fun hc => absurd hcond hc⟩⟩
    · rw [if_neg hcond]
      exact ⟨⟨fun hc => absurd hc (by decide), fun hc => absurd hc hcond⟩,
             ⟨fun _ => hcond, fun _ => rfl⟩⟩
  · intro c hnum hne hdt hbool
    have hie : (nonNullCells c).isEmpty = false := by
      cases h : nonNullCells c with
      | nil => exact absurd h hne
      | cons a l => rfl
    rw [detectColumnType, hie, hnum, hdt, hbool]
    simp only [Bool.false_eq_true, if_false]
    by_cases hcond : uniqueCount c ≤ 20 ∨ ((uniqueCount c : ℚ) / (rowCount c : ℚ)) < 1/20
    · rw [if_pos hcond]
      exact ⟨⟨fun _ => hcond, fun _ => rfl⟩,
             ⟨fun hc => absurd hc (by decide), fun hc => absurd hcond hc⟩⟩
    · rw [if_neg hcond]
      exact ⟨⟨fun hc => absurd hc (by decide), fun hc => absurd hc hcond⟩,
             ⟨fun _ => hcond, fun _ => rfl⟩⟩

/-- C3, witness: the 41-row integer-valued column with 2 distinct values
(2 ≤ 20 and 2/41 < 0.05) comes out categorical, and the 21-row text column
with 21 distinct values (21 > 20 and 21/21 ≥ 0.05) comes out text. -/
theorem c3_type_inference_witness :
    detectColumnType c3ColNum = ("categorical") ∧
    detectColumnType c3ColText = ("text") := by
  have h1 := (c3_type_inference_thresholds.1 c3ColNum rfl (by decide) (by decide)).1
  have h2 := (c3_type_inference_thresholds.2 c3ColText rfl (by decide) rfl (by decide)).2
  constructor
  · apply h1.mpr
    have hu : uniqueCount c3ColNum = 2 := by decide
    have hr : rowCount c3ColNum = 41 := by decide
    refine ⟨by omega, ?_⟩
    rw [hu, hr]
    norm_num
  · apply h2.mpr
    have hu : uniqueCount c3ColText = 21 := by decide
    have hr : rowCount c3ColText = 21 := by decide
    rintro (h | h)
    · rw [hu] at h
      omega
    · rw [hu, hr] at h
      norm_num at h

theorem quantileSorted_eval (s : List ℚ) (p : ℚ) (k : ℕ)
    (hk : ⌊p * ((s.length : ℚ) - 1)⌋ = (k : ℤ)) :
    quantileSorted s p =
      s.getD k 0 + (p * ((s.length : ℚ) - 1) - (k : ℚ)) *
        (s.getD (k + 1) (s.getD k 0) - s.getD k 0) := by
  simp only [quantileSorted, hk, Int.toNat_natCast, Int.cast_natCast]

theorem quantileSorted_singleton (a p : ℚ) :
    quantileSorted [a] p = a := by
  have hk : ⌊p * ((([a] : List ℚ).length : ℚ) - 1)⌋ = ((0 : ℕ) : ℤ) := by
    have hlen : ((([a] : List ℚ).length : ℚ) - 1) = 0 := by norm_num
    rw [hlen, mul_zero]
    norm_num
  rw [quantileSorted_eval [a] p 0 hk]
  have h1 : ([a] : List ℚ).getD 0 0 = a := rfl
  rw [h1]
  have h2 : ([a] : List ℚ).getD 1 a = a := rfl
  rw [h2]
  have hlen : ((([a] : List ℚ).length : ℚ) - 1) = 0 := by norm_num
  rw [hlen, mul_zero]
  ring

theorem quantileSorted_pair_q1 (a b : ℚ) :
    quantileSorted [a, b] (1/4) = a + (1/4) * (b - a) := by
  rw [quantileSorted_eval [a, b] (1/4) 0 (by norm_num)]
  have h1 : ([a, b] : List ℚ).getD 0 0 = a := rfl
  rw [h1]
  have h2 : ([a, b] : List ℚ).getD 1 a = b := rfl
  rw [h2]
  norm_num

theorem quantileSorted_pair_q3 (a b : ℚ) :
    quantileSorted [a, b] (3/4) = a + (3/4) * (b - a) := by
  rw [quantileSorted_eval [a, b] (3/4) 0 (by norm_num)]
  have h1 : ([a, b] : List ℚ).getD 0 0 = a := rfl
  rw [h1]
  have h2 : ([a, b] : List ℚ).getD 1 a = b := rfl
  rw [h2]
  norm_num

theorem quantileSorted_triple_q1 (a b c : ℚ) :
    quantileSorted [a, b, c] (1/4) = a + (1/2) * (b - a) := by
  rw [quantileSorted_eval [a, b, c] (1/4) 0 (by norm_num)]
  have h1 : ([a, b, c] : List ℚ).getD 0 0 = a := rfl
  rw [h1]
  have h2 : ([a, b, c] : List ℚ).getD 1 a = b := rfl
  rw [h2]
  norm_num

theorem quantileSorted_triple_q3 (a b c : ℚ) :
    quantileSorted [a, b, c] (3/4) = b + (1/2) * (c - b) := by
  rw [quantileSorted_eval [a, b, c] (3/4) 1 (by norm_num)]
  have h1 : ([a, b, c] : List ℚ).getD 1 0 = b := rfl
  rw [h1]
  have h2 : ([a, b, c] : List ℚ).getD 2 b = c := rfl
  rw [h2]
  norm_num

theorem quantileSorted_quad_q1 (a b c d : ℚ) :
    quantileSorted [a, b, c, d] (1/4) = a + (3/4) * (b - a) := by
  rw [quantileSorted_eval [a, b, c, d] (1/4) 0 (by norm_num)]
  have h1 : ([a, b, c, d] : List ℚ).getD 0 0 = a := rfl
  rw [h1]
  have h2 : ([a, b, c, d] : List ℚ).getD 1 a = b := rfl
  rw [h2]
  norm_num

theorem quantileSorted_quad_q3 (a b c d : ℚ) :
    quantileSorted [a, b, c, d] (3/4) = c + (1/4) * (d - c) := by
  rw [quantileSorted_eval [a, b, c, d] (3/4) 2 (by norm_num)]
  have h1 : ([a, b, c, d] : List ℚ).getD 2 0 = c := rfl
  rw [h1]
  have h2 : ([a, b, c, d] : List ℚ).getD 3 c = d := rfl
  rw [h2]
  norm_num

theorem no_outliers_of_small (data : List ℚ) (hlen : data.length ≤ 3) (x : ℚ)
    (hx : x ∈ data) :
    ¬ (x < quantile data (1/4) - (3/2) * (quantile data (3/4) - quantile data (1/4)) ∨
       x > quantile data (3/4) + (3/2) * (quantile data (3/4) - quantile data (1/4))) := by
  have hperm := List.perm_insertionSort (fun a b => a ≤ b) data
  have hsorted := List.sorted_insertionSort (fun a b => a ≤ b) data
  have hxs : x ∈ data.insertionSort (fun a b => a ≤ b) := hperm.mem_iff.mpr hx
  have hslen : (data.insertionSort (fun a b => a ≤ b)).length = data.length :=
    hperm.length_eq
  simp only [quantile]
  obtain ⟨s, hs⟩ : ∃ s, data.insertionSort (fun a b => a ≤ b) = s := ⟨_, rfl⟩
  rw [hs] at hxs hsorted hslen ⊢
  have hlen3 : s.length ≤ 3 := by omega
  match s, hxs, hsorted, hlen3 with
  | [a], hxs, hsorted, hlen3 =>
    rw [List.mem_singleton] at hxs
    subst hxs
    rw [quantileSorted_singleton, quantileSorted_singleton]
    rintro (h | h) <;> linarith
  | [a, b], hxs, hsorted, hlen3 =>
    have hab : a ≤ b := List.rel_of_sorted_cons hsorted b (by simp)
    rw [quantileSorted_pair_q1, quantileSorted_pair_q3]
    simp only [List.mem_cons, List.not_mem_nil, or_false] at hxs
    rcases hxs with rfl | rfl
    · rintro (h | h) <;> linarith
    · rintro (h | h) <;> linarith
  | [a, b, c], hxs, hsorted, hlen3 =>
    have hab : a ≤ b := List.rel_of_sorted_cons hsorted b (by simp)
    have hbc : b ≤ c :=
      List.rel_of_sorted_cons (List.sorted_cons.mp hsorted).2 c (by simp)
    rw [quantileSorted_triple_q1, quantileSorted_triple_q3]
    simp only [List.mem_cons, List.not_mem_nil, or_false] at hxs
    rcases hxs with rfl | rfl | rfl
    · rintro (h | h) <;> linarith
    · rintro (h | h) <;> linarith
    · rintro (h | h) <;> linarith

/-- C8: for every column, the Profiler boolean has_outliers agrees with the
Anomaly Detector's per-column outlier test: has_outliers is true exactly
when the detector produces an entry for the column, i.e. when at least one
value is flagged.  Columns with fewer than 4 non-null values are covered:
there the Profiler short-circuits to false, and with 1, 2 or 3 points the
interpolated IQR fences can never exclude a value, so the detector flags
nothing either. -/
theorem c8_has_outliers_agrees_with_detector (cells : List (Option ℚ)) :
    hasOutliers cells = true ↔ (outlierInfoOf cells).isSome = true := by
  simp only [hasOutliers, outlierInfoOf]
  by_cases h0 : (cells.filterMap id).length = 0
  · have h4 : (cells.filterMap id).length < 4 := by omega
    rw [if_pos h4, if_pos h0]
    simp
  · by_cases h4 : (cells.filterMap id).length < 4
    · rw [if_pos h4, if_neg h0]
      have hfil : ((cells.filterMap id).filter
          (fun x => decide (x < quantile (cells.filterMap id) (1/4) -
              (3/2) * (quantile (cells.filterMap id) (3/4) -
                quantile (cells.filterMap id) (1/4)) ∨
            x > quantile (cells.filterMap id) (3/4) +
              (3/2) * (quantile (cells.filterMap id) (3/4) -
                quantile (cells.filterMap id) (1/4))))).length = 0 := by
        rw [List.length_eq_zero, List.filter_eq_nil_iff]
        intro x hx
        have hno := no_outliers_of_small (cells.filterMap id) (by omega) x hx
        simpa using hno
      rw [if_pos hfil]
      simp
    · rw [if_neg h4, if_neg h0]
      by_cases hfl : ((cells.filterMap id).filter
          (fun x => decide (x < quantile (cells.filterMap id) (1/4) -
              (3/2) * (quantile (cells.filterMap id) (3/4) -
                quantile (cells.filterMap id) (1/4)) ∨
            x > quantile (cells.filterMap id) (3/4) +
              (3/2) * (quantile (cells.filterMap id) (3/4) -
                quantile (cells.filterMap id) (1/4))))).length = 0
      · rw [if_pos hfl]
        simp only [Option.isSome_none, Bool.false_eq_true, iff_false]
        intro hany
        rcases List.any_eq_true.mp hany with ⟨x, hx, hpred⟩
        have hmem : x ∈ (cells.filterMap id).filter
            (fun x => decide (x < quantile (cells.filterMap id) (1/4) -
                (3/2) * (quantile (cells.filterMap id) (3/4) -
                  quantile (cells.filterMap id) (1/4)) ∨
              x > quantile (cells.filterMap id) (3/4) +
                (3/2) * (quantile (cells.filterMap id) (3/4) -
                  quantile (cells.filterMap id) (1/4)))) :=
          List.mem_filter.mpr ⟨hx, hpred⟩
        rw [List.length_eq_zero.mp hfl] at hmem
        exact absurd hmem (List.not_mem_nil x)
      · rw [if_neg hfl]
        simp only [Option.isSome_some, iff_true]
        have hne : (cells.filterMap id).filter
            (fun x => decide (x < quantile (cells.filterMap id) (1/4) -
                (3/2) * (quantile (cells.filterMap id) (3/4) -
                  quantile (cells.filterMap id) (1/4)) ∨
              x > quantile (cells.filterMap id) (3/4) +
                (3/2) * (quantile (cells.filterMap id) (3/4) -
                  quantile (cells.filterMap id) (1/4)))) ≠ [] := by
          intro hnil
          exact hfl (by rw [hnil]; rfl)
        rcases List.exists_mem_of_ne_nil _ hne with ⟨x, hxmem⟩
        rcases List.mem_filter.mp hxmem with ⟨hx, hpred⟩
        exact List.any_eq_true.mpr ⟨x, hx, hpred⟩

/-- C4: every entry of the outlier report names one of the first five
numeric columns; its bounds are Q1 − 1.5·IQR and Q3 + 1.5·IQR over the
column's non-null values; a column appears only with at least one flagged
value; the reported extreme outliers lie strictly outside the fences; and
the per-column entry is a deterministic function of the column's non-null
values. -/
theorem c4_outlier_report_sound (cols : List (String × List (Option ℚ)))
    (name : String) (info : OutlierInfo)
    (hmem : (name, info) ∈ detectOutliers cols) :
    name ∈ (cols.take 5).map Prod.fst ∧
    (∃ cells, (name, cells) ∈ cols.take 5 ∧ outlierInfoOf cells = some info ∧
      info.lower_bound = quantile (cells.filterMap id) (1/4) -
        (3/2) * (quantile (cells.filterMap id) (3/4) -
          quantile (cells.filterMap id) (1/4)) ∧
      info.upper_bound = quantile (cells.filterMap id) (3/4) +
        (3/2) * (quantile (cells.filterMap id) (3/4) -
          quantile (cells.filterMap id) (1/4)) ∧
      1 ≤ info.count ∧
      (info.min_outlier < info.lower_bound ∨ info.min_outlier > info.upper_bound) ∧
      (info.max_outlier < info.lower_bound ∨ info.max_outlier > info.upper_bound)) ∧
    (∀ c₁ c₂ : List (Option ℚ), c₁.filterMap id = c₂.filterMap id →
      outlierInfoOf c₁ = outlierInfoOf c₂) := by
  rcases List.mem_filterMap.mp hmem with ⟨col, hcol, heq⟩
  rcases Option.map_eq_some'.mp heq with ⟨info0, hsome, hpair⟩
  cases hpair
  refine ⟨List.mem_map.mpr ⟨col, hcol, rfl⟩, ⟨col.2, ?_, hsome, ?_⟩, ?_⟩
  · rw [Prod.mk.eta]
    exact hcol
  · simp only [outlierInfoOf] at hsome
    by_cases h0 : (col.2.filterMap id).length = 0
    · rw [if_pos h0] at hsome
      exact absurd hsome (by simp)
    · rw [if_neg h0] at hsome
      by_cases hfl : ((col.2.filterMap id).filter
          (fun x => decide (x < quantile (col.2.filterMap id) (1/4) -
              (3/2) * (quantile (col.2.filterMap id) (3/4) -
                quantile (col.2.filterMap id) (1/4)) ∨
            x > quantile (col.2.filterMap id) (3/4) +
              (3/2) * (quantile (col.2.filterMap id) (3/4) -
                quantile (col.2.filterMap id) (1/4))))).length = 0
      · rw [if_pos hfl] at hsome
        exact absurd hsome (by simp)
      · rw [if_neg hfl] at hsome
        have hrec := (Option.some.injEq _ _).mp hsome
        subst hrec
        have hne : (col.2.filterMap id).filter
            (fun x => decide (x < quantile (col.2.filterMap id) (1/4) -
                (3/2) * (quantile (col.2.filterMap id) (3/4) -
                  quantile (col.2.filterMap id) (1/4)) ∨
              x > quantile (col.2.filterMap id) (3/4) +
                (3/2) * (quantile (col.2.filterMap id) (3/4) -
                  quantile (col.2.filterMap id) (1/4)))) ≠ [] := by
          intro hnil
          exact hfl (by rw [hnil]; rfl)
        refine ⟨rfl, rfl, Nat.pos_of_ne_zero hfl, ?_, ?_⟩
        · cases hmin : ((col.2.filterMap id).filter
              (fun x => decide (x < quantile (col.2.filterMap id) (1/4) -
                  (3/2) * (quantile (col.2.filterMap id) (3/4) -
                    quantile (col.2.filterMap id) (1/4)) ∨
                x > quantile (col.2.filterMap id) (3/4) +
                  (3/2) * (quantile (col.2.filterMap id) (3/4) -
                    quantile (col.2.filterMap id) (1/4))))).min? with
          | none => exact absurd (List.min?_eq_none_iff.mp hmin) hne
          | some m =>
            have hm := List.min?_mem (fun a b => min_choice a b) hmin
            rcases List.mem_filter.mp hm with ⟨_, hpred⟩
            have := of_decide_eq_true hpred
            simpa [hmin] using this
        · cases hmax : ((col.2.filterMap id).filter
              (fun x => decide (x < quantile (col.2.filterMap id) (1/4) -
                  (3/2) * (quantile (col.2.filterMap id) (3/4) -
                    quantile (col.2.filterMap id) (1/4)) ∨
                x > quantile (col.2.filterMap id) (3/4) +
                  (3/2) * (quantile (col.2.filterMap id) (3/4) -
                    quantile (col.2.filterMap id) (1/4))))).max? with
          | none => exact absurd (List.max?_eq_none_iff.mp hmax) hne
          | some m =>
            have hm := List.max?_mem (fun a b => max_choice a b) hmax
            rcases List.mem_filter.mp hm with ⟨_, hpred⟩
            have := of_decide_eq_true hpred
            simpa [hmax] using this
  · intro c₁ c₂ hcc
    simp only [outlierInfoOf, hcc]

/-- C4, witness: on the single numeric column named amount with values
0, 0, 0, 100, the detector reports exactly the entry with fences
[−37.5, 62.5] and the single outlier 100, and the soundness theorem applies
to that entry. -/
theorem c4_outlier_report_witness :
    ("amount", c4Info) ∈ detectOutliers [("amount", c4Cells)] ∧
    (("amount") ∈ ([("amount", c4Cells)].take 5).map Prod.fst ∧
     (∃ cells, ("amount", cells) ∈ [("amount", c4Cells)].take 5 ∧
        outlierInfoOf cells = some c4Info ∧
        c4Info.lower_bound = quantile (cells.filterMap id) (1/4) -
          (3/2) * (quantile (cells.filterMap id) (3/4) -
            quantile (cells.filterMap id) (1/4)) ∧
        c4Info.upper_bound = quantile (cells.filterMap id) (3/4) +
          (3/2) * (quantile (cells.filterMap id) (3/4) -
            quantile (cells.filterMap id) (1/4)) ∧
        1 ≤ c4Info.count ∧
        (c4Info.min_outlier < c4Info.lower_bound ∨
          c4Info.min_outlier > c4Info.upper_bound) ∧
        (c4Info.max_outlier < c4Info.lower_bound ∨
          c4Info.max_outlier > c4Info.upper_bound)) ∧
     (∀ c₁ c₂ : List (Option ℚ), c₁.filterMap id = c₂.filterMap id →
        outlierInfoOf c₁ = outlierInfoOf c₂)) := by
  have hsorted : List.Sorted (fun a b => a ≤ b) [(0:ℚ), 0, 0, 100] := by
    norm_num [List.sorted_cons]
  have hsort_eq : ([(0:ℚ), 0, 0, 100].insertionSort (fun a b => a ≤ b)) = [0, 0, 0, 100] :=
    List.Sorted.insertionSort_eq hsorted
  have hq1 : quantile [(0:ℚ), 0, 0, 100] (1/4) = 0 := by
    rw [quantile, hsort_eq, quantileSorted_quad_q1]
    norm_num
  have hq3 : quantile [(0:ℚ), 0, 0, 100] (3/4) = 25 := by
    rw [quantile, hsort_eq, quantileSorted_quad_q3]
    norm_num
  have hdata : c4Cells.filterMap id = [(0:ℚ), 0, 0, 100] := rfl
  have heval : outlierInfoOf c4Cells = some c4Info := by
    simp only [outlierInfoOf, hdata, hq1, hq3]
    norm_num [c4Info, List.filter_cons, List.filter_nil, decide_eq_true_eq,
      List.min?, List.max?, List.foldl, Option.getD]
  have hmem : ("amount", c4Info) ∈ detectOutliers [("amount", c4Cells)] := by
    simp [detectOutliers, heval]
  exact ⟨hmem, c4_outlier_report_sound _ _ _ hmem⟩

theorem rule1_categories (mp : List (String × ℚ)) (a : Action)
    (ha : a ∈ rule1MissingActions mp) :
    a.category = ("Data Quality Crisis") ∨ a.category = ("Data Quality Issue") := by
  rcases List.mem_flatMap.mp ha with ⟨x, _, hax⟩
  split_ifs at hax
  · rw [List.mem_singleton] at hax
    subst hax
    left
    rfl
  · rw [List.mem_singleton] at hax
    subst hax
    right
    rfl
  · exact absurd hax (List.not_mem_nil a)

theorem rule2_categories (tr : List (String × TrendInfo)) (a : Action)
    (ha : a ∈ rule2VariabilityActions tr) : a.category = ("High Risk Alert") := by
  rcases List.mem_flatMap.mp ha with ⟨x, _, hax⟩
  split_ifs at hax
  · rw [List.mem_singleton] at hax
    subst hax
    rfl
  · exact absurd hax (List.not_mem_nil a)

theorem rule3_categories (tr : List (String × TrendInfo)) (a : Action)
    (ha : a ∈ rule3DecliningActions tr) : a.category = ("Performance Alert") := by
  rcases List.mem_flatMap.mp ha with ⟨x, _, hax⟩
  split_ifs at hax
  · rw [List.mem_singleton] at hax
    subst hax
    rfl
  · exact absurd hax (List.not_mem_nil a)

theorem rule4_categories (tr : List (String × TrendInfo)) (a : Action)
    (ha : a ∈ rule4GrowthActions tr) : a.category = ("Growth Opportunity") := by
  rcases List.mem_flatMap.mp ha with ⟨x, _, hax⟩
  split_ifs at hax
  · rw [List.mem_singleton] at hax
    subst hax
    rfl
  · exact absurd hax (List.not_mem_nil a)

theorem rule5_categories (tr : List (String × TrendInfo)) (a : Action)
    (ha : a ∈ rule5StableActions tr) : a.category = ("Planning Asset") := by
  rcases List.mem_flatMap.mp ha with ⟨x, _, hax⟩
  split_ifs at hax
  · rw [List.mem_singleton] at hax
    subst hax
    rfl
  · exact absurd hax (List.not_mem_nil a)

theorem rule6_categories (ds : List (String × DistInfo)) (a : Action)
    (ha : a ∈ rule6ConcentrationActions ds) :
    a.category = ("Concentration Risk") ∨ a.category = ("Balanced Portfolio") := by
  rcases List.mem_flatMap.mp ha with ⟨x, _, hax⟩
  rw [rule6ColActions] at hax
  split_ifs at hax
  · rw [List.mem_singleton] at hax
    subst hax
    left
    rfl
  · rw [List.mem_singleton] at hax
    subst hax
    right
    rfl
  · exact absurd hax (List.not_mem_nil a)

theorem rule7_categories (cs : List (String × String)) (a : Action)
    (ha : a ∈ rule7CorrelationActions cs) : a.category = ("Strategic Insight") := by
  rcases List.mem_flatMap.mp ha with ⟨x, _, hax⟩
  split_ifs at hax
  · rw [List.mem_singleton] at hax
    subst hax
    rfl
  · exact absurd hax (List.not_mem_nil a)

theorem mem_generate_iff_rule8 (inp : AnalysisInput) (a : Action)
    (hcat : a.category = ("Data Governance Crisis") ∨ a.category = ("Data Excellence")) :
    (a ∈ generateBusinessActions inp ↔
      a ∈ rule8QualityActions inp.totalRows inp.totalCols inp.missingCells
        inp.duplicateRows) := by
  rw [generateBusinessActions, sortActions, List.mem_insertionSort, generatedActions]
  simp only [List.mem_append, or_assoc]
  constructor
  · rintro (h | h | h | h | h | h | h | h)
    · exact absurd (rule1_categories _ _ h)
        (by rcases hcat with hcat | hcat <;> rw [hcat] <;> decide)
    · exact absurd (rule2_categories _ _ h)
        (by rcases hcat with hcat | hcat <;> rw [hcat] <;> decide)
    · exact absurd (rule3_categories _ _ h)
        (by rcases hcat with hcat | hcat <;> rw [hcat] <;> decide)
    · exact absurd (rule4_categories _ _ h)
        (by rcases hcat with hcat | hcat <;> rw [hcat] <;> decide)
    · exact absurd (rule5_categories _ _ h)
        (by rcases hcat with hcat | hcat <;> rw [hcat] <;> decide)
    · exact absurd (rule6_categories _ _ h)
        (by rcases hcat with hcat | hcat <;> rw [hcat] <;> decide)
    · exact absurd (rule7_categories _ _ h)
        (by rcases hcat with hcat | hcat <;> rw [hcat] <;> decide)
    · exact h
  · intro h
    exact Or.inr (Or.inr (Or.inr (Or.inr (Or.inr (Or.inr (Or.inr h))))))

/-- C1, counterexample: on a dataset of 2 rows and 1 column with no missing
cells and 1 duplicate row, the claim's composite score
0.6·completeness + 0.4·uniqueness − 10·duplicate-rate equals 75, below 80,
so the claim demands a critical governance action; but rule family 8 as
implemented scores completeness − 10·duplicate-rate = 95 and emits the
strategic excellence action instead (and no critical action). -/
theorem c1_quality_rule_counterexample :
    claimQualityScore 2 1 0 1 < 80 ∧
    rule8QualityActions 2 1 0 1 =
      [{ category := ("Data Excellence"), priority := Priority.strategic }] ∧
    Action.mk ("Data Governance Crisis") Priority.critical ∉
      rule8QualityActions 2 1 0 1 := by
  have hscore : rule8QualityScore 2 1 0 1 = 95 := by
    norm_num [rule8QualityScore]
  have hact : rule8QualityActions 2 1 0 1 =
      [{ category := ("Data Excellence"), priority := Priority.strategic }] := by
    rw [rule8QualityActions, hscore]
    norm_num
  refine ⟨by norm_num [claimQualityScore], hact, ?_⟩
  rw [hact]
  decide

/-- C1, amended: rule family 8 computes the quality score as the
completeness percentage minus ten times the duplicate-row fraction (no
uniqueness term), and the generated action list contains the critical
governance action exactly when that score is below 80 and the strategic
excellence action exactly when it is at least 90, with no rule-8 action in
between. -/
theorem c1_quality_rule_amended (inp : AnalysisInput) :
    ((Action.mk ("Data Governance Crisis") Priority.critical ∈
        generateBusinessActions inp) ↔
      rule8QualityScore inp.totalRows inp.totalCols inp.missingCells
        inp.duplicateRows < 80) ∧
    ((Action.mk ("Data Excellence") Priority.strategic ∈
        generateBusinessActions inp) ↔
      90 ≤ rule8QualityScore inp.totalRows inp.totalCols inp.missingCells
        inp.duplicateRows) ∧
    (rule8QualityActions inp.totalRows inp.totalCols inp.missingCells
        inp.duplicateRows = [] ↔
      (80 ≤ rule8QualityScore inp.totalRows inp.totalCols inp.missingCells
          inp.duplicateRows ∧
       rule8QualityScore inp.totalRows inp.totalCols inp.missingCells
          inp.duplicateRows < 90)) := by
  have hgov := mem_generate_iff_rule8 inp
    (Action.mk ("Data Governance Crisis") Priority.critical) (Or.inl rfl)
  have hexc := mem_generate_iff_rule8 inp
    (Action.mk ("Data Excellence") Priority.strategic) (Or.inr rfl)
  rw [rule8QualityActions] at hgov hexc ⊢
  by_cases h80 : rule8QualityScore inp.totalRows inp.totalCols inp.missingCells
      inp.duplicateRows < 80
  · rw [if_pos h80] at hgov hexc ⊢
    refine ⟨⟨fun _ => h80, fun _ => hgov.mpr (by decide)⟩, ?_, ?_⟩
    · constructor
      · intro hmem
        have := hexc.mp hmem
        rw [List.mem_singleton] at this
        exact absurd this (by decide)
      · intro h90
        linarith
    · constructor
      · intro hnil
        exact absurd hnil (by decide)
      · rintro ⟨h1, _⟩
        linarith
  · rw [if_neg h80] at hgov hexc ⊢
    by_cases h90 : rule8QualityScore inp.totalRows inp.totalCols inp.missingCells
        inp.duplicateRows ≥ 90
    · rw [if_pos h90] at hgov hexc ⊢
      refine ⟨?_, ⟨fun _ => h90, fun _ => hexc.mpr (by decide)⟩, ?_⟩
      · constructor
        · intro hmem
          have := hgov.mp hmem
          rw [List.mem_singleton] at this
          exact absurd this (by decide)
        · intro hlt
          exact absurd hlt h80
      · constructor
        · intro hnil
          exact absurd hnil (by decide)
        · rintro ⟨_, h2⟩
          linarith
    · rw [if_neg h90] at hgov hexc ⊢
      refine ⟨?_, ?_, ?_⟩
      · constructor
        · intro hmem
          exact absurd (hgov.mp hmem) (List.not_mem_nil _)
        · intro hlt
          exact absurd hlt h80
      · constructor
        · intro hmem
          exact absurd (hexc.mp hmem) (List.not_mem_nil _)
        · intro hge
          exact absurd hge h90
      · exact ⟨fun _ => ⟨le_of_not_lt h80, lt_of_not_le h90⟩, fun _ => rfl⟩

theorem filter_orderedInsert_priority (p : Priority) (x : Action) (l : List Action) :
    (l.orderedInsert actLE x).filter (fun a => a.priority = p)
      = if x.priority = p then x :: l.filter (fun a => a.priority = p)
        else l.filter (fun a => a.priority = p) := by
  induction l with
  | nil =>
    simp only [List.orderedInsert, List.filter_nil, List.filter_cons]
    by_cases hxp : x.priority = p
    · rw [if_pos (by simpa using hxp), if_pos hxp]
    · rw [if_neg (by simpa using hxp), if_neg hxp]
  | cons y l ih =>
    rw [List.orderedInsert]
    by_cases hxy : actLE x y
    · rw [if_pos hxy]
      by_cases hxp : x.priority = p
      · simp [List.filter_cons, hxp]
      · simp [List.filter_cons, hxp]
    · rw [if_neg hxy]
      have hyx : priorityRank y.priority < priorityRank x.priority := by
        simpa [actLE, not_le] using hxy
      by_cases hxp : x.priority = p
      · have hyp : ¬ y.priority = p := by
          intro hyp
          rw [hxp, ← hyp] at hyx
          exact lt_irrefl _ hyx
        simp [List.filter_cons, ih, hxp, hyp]
      · by_cases hyp : y.priority = p
        · simp [List.filter_cons, ih, hxp, hyp]
        · simp [List.filter_cons, ih, hxp, hyp]

theorem filter_sortActions_priority (p : Priority) (l : List Action) :
    (sortActions l).filter (fun a => a.priority = p)
      = l.filter (fun a => a.priority = p) := by
  rw [sortActions]
  induction l with
  | nil => rfl
  | cons x l ih =>
    rw [List.insertionSort, filter_orderedInsert_priority, ih, List.filter_cons]
    by_cases hxp : x.priority = p
    · rw [if_pos hxp, if_pos (by simpa using hxp)]
    · rw [if_neg hxp, if_neg (by simpa using hxp)]

/-- C2: the returned action list is sorted by priority tier (critical
before high before strategic, so no high or strategic action ever precedes
a critical one), and within each tier the relative order equals the
generation order under the fixed rule-family order: filtering the sorted
output by a tier gives exactly the same list as filtering the generation
phase output. -/
theorem c2_actions_sorted_stable (inp : AnalysisInput) :
    List.Pairwise actLE (generateBusinessActions inp) ∧
    ∀ p : Priority,
      (generateBusinessActions inp).filter (fun a => a.priority = p)
        = (generatedActions inp).filter (fun a => a.priority = p) := by
  constructor
  · exact List.sorted_insertionSort actLE (generatedActions inp)
  · intro p
    exact filter_sortActions_priority p (generatedActions inp)

theorem bestOf_foldl_inv (vals : List String) (cs : List String) (b : String × ℕ)
    (hb : b.2 = vals.count b.1) :
    ((cs.foldl (bestOf vals) b).2 = vals.count (cs.foldl (bestOf vals) b).1) ∧
    b.2 ≤ (cs.foldl (bestOf vals) b).2 ∧
    ∀ w ∈ cs, vals.count w ≤ (cs.foldl (bestOf vals) b).2 := by
  induction cs generalizing b with
  | nil => exact ⟨hb, le_refl _, by simp⟩
  | cons c cs ih =>
    simp only [List.foldl_cons]
    have hb2 : (bestOf vals b c).2 = vals.count (bestOf vals b c).1 := by
      rw [bestOf]
      split_ifs with h
      · rfl
      · exact hb
    obtain ⟨h1, h2, h3⟩ := ih (bestOf vals b c) hb2
    have hstep : b.2 ≤ (bestOf vals b c).2 := by
      rw [bestOf]
      split_ifs with h
      · exact le_of_lt h
      · exact le_refl _
    have hcstep : vals.count c ≤ (bestOf vals b c).2 := by
      rw [bestOf]
      split_ifs with h
      · exact le_refl _
      · omega
    refine ⟨h1, le_trans hstep h2, ?_⟩
    intro w hw
    rcases List.mem_cons.mp hw with rfl | hw
    · exact le_trans hcstep h2
    · exact h3 w hw

theorem mostCommon?_spec (vals : List String) (v : String) (c : ℕ)
    (h : mostCommon? vals = some (v, c)) :
    c = vals.count v ∧ ∀ w ∈ vals, vals.count w ≤ c := by
  rw [mostCommon?] at h
  cases hd : dedupFirst vals with
  | nil =>
    rw [hd] at h
    exact absurd h (by simp)
  | cons v0 vs =>
    rw [hd] at h
    have hfold : vs.foldl (bestOf vals) (v0, vals.count v0) = (v, c) :=
      (Option.some.injEq _ _).mp h
    have hinv := bestOf_foldl_inv vals vs (v0, vals.count v0) rfl
    constructor
    · have := hinv.1
      rw [hfold] at this
      exact this
    · intro w hw
      have hwd : w ∈ dedupFirst vals := mem_dedupFirst.mpr hw
      rw [hd] at hwd
      rcases List.mem_cons.mp hwd with rfl | hwd
      · have := hinv.2.1
        rw [hfold] at this
        exact this
      · have := hinv.2.2 w hwd
        rw [hfold] at this
        exact this

theorem length_filterMap_id_add_count_none {α : Type} [DecidableEq α]
    (cells : List (Option α)) :
    (cells.filterMap id).length + cells.count none = cells.length := by
  induction cells with
  | nil => rfl
  | cons c cs ih =>
    cases c with
    | none =>
      rw [List.filterMap_cons_none (rfl : id (none : Option α) = none),
        List.count_cons_self, List.length_cons]
      omega
    | some a =>
      rw [List.filterMap_cons_some (rfl : id (some a) = some a),
        List.count_cons_of_ne (by simp), List.length_cons, List.length_cons]
      omega

/-- C10: the concentration of an analyzed categorical column equals the
most frequent non-null value's count divided by the full row count (nulls
included) times 100; with k null cells it therefore never exceeds
(rows − k)/rows × 100; and a column whose most common value covers more
than 70 percent of its non-null entries but at most 70 percent of all rows
does not trigger the concentration-risk action of rule family 6. -/
theorem c10_concentration_over_all_rows (cells : List (Option String))
    (info : DistInfo) (h : catDistOf cells = some info) :
    info.concentration =
      ((info.most_common_count : ℚ) / (cells.length : ℚ)) * 100 ∧
    (∀ w, (cells.filterMap id).count w ≤ info.most_common_count) ∧
    info.concentration ≤
      (((cells.length : ℚ) - (cells.count none : ℚ)) / (cells.length : ℚ)) * 100 ∧
    (7 * ((cells.length : ℚ) - (cells.count none : ℚ)) <
        10 * (info.most_common_count : ℚ) →
      10 * (info.most_common_count : ℚ) ≤ 7 * (cells.length : ℚ) →
      Action.mk ("Concentration Risk") Priority.high ∉ rule6ColActions info) := by
  simp only [catDistOf] at h
  cases hmc : mostCommon? (cells.filterMap id) with
  | none =>
    rw [hmc] at h
    exact absurd h (by simp)
  | some vc =>
    rw [hmc] at h
    have hrec := (Option.some.injEq _ _).mp h
    subst hrec
    have hspec := mostCommon?_spec (cells.filterMap id) vc.1 vc.2 (by rw [hmc])
    have hcle : vc.2 ≤ (cells.filterMap id).length := by
      rw [hspec.1]
      apply List.count_le_length
    have hlen := length_filterMap_id_add_count_none cells
    have hpos : 0 < cells.length := by
      cases cells with
      | nil =>
        exfalso
        rw [show List.filterMap id ([] : List (Option String)) = [] from rfl] at hmc
        rw [show mostCommon? ([] : List String) = none from rfl] at hmc
        exact absurd hmc (by simp)
      | cons c cs => simp
    have hposq : (0 : ℚ) < (cells.length : ℚ) := by
      exact_mod_cast hpos
    have hcleq : (vc.2 : ℚ) ≤ (cells.length : ℚ) - (cells.count none : ℚ) := by
      have hv : (vc.2 : ℚ) ≤ ((cells.filterMap id).length : ℚ) := by exact_mod_cast hcle
      have h2 : ((cells.filterMap id).length : ℚ) + (cells.count none : ℚ) =
          (cells.length : ℚ) := by exact_mod_cast hlen
      linarith
    have hmax : ∀ w, (cells.filterMap id).count w ≤ vc.2 := by
      intro w
      by_cases hw : w ∈ cells.filterMap id
      · exact hspec.2 w hw
      · rw [List.count_eq_zero_of_not_mem hw]
        exact Nat.zero_le _
    refine ⟨rfl, hmax, ?_, ?_⟩
    · apply mul_le_mul_of_nonneg_right _ (by norm_num : (0:ℚ) ≤ 100)
      exact (div_le_div_iff_of_pos_right hposq).mpr hcleq
    · intro h70nn h70
      have hconc : ((vc.2 : ℚ) / (cells.length : ℚ)) * 100 ≤ 70 := by
        rw [div_mul_eq_mul_div, div_le_iff₀ hposq]
        linarith
      rw [rule6ColActions]
      simp only
      rw [if_neg (by simpa using not_lt.mpr hconc)]
      split_ifs
      · simp
      · simp

theorem dedupFirstAux_sublist {α : Type} [DecidableEq α] (l : List α) :
    ∀ seen : List α, List.Sublist (dedupFirstAux seen l) l := by
  induction l with
  | nil =>
    intro seen
    rw [dedupFirstAux]
  | cons x xs ih =>
    intro seen
    rw [dedupFirstAux]
    by_cases hx : x ∈ seen
    · rw [if_pos hx]
      exact List.Sublist.cons x (ih seen)
    · rw [if_neg hx]
      exact List.Sublist.cons₂ x (ih (x :: seen))

theorem dedupFirst_sublist {α : Type} [DecidableEq α] (l : List α) :
    List.Sublist (dedupFirst l) l :=
  dedupFirstAux_sublist l []

theorem dedupFirst_eq_of_dup_zero {α : Type} [DecidableEq α] (l : List α)
    (h : l.length - (dedupFirst l).length = 0) : dedupFirst l = l := by
  have hle := length_dedupFirst_le l
  exact (dedupFirst_sublist l).eq_of_length (by omega)

theorem dedupStep_fixed (d : Dataset) (h : dupRowCount d.rows = 0) :
    dedupStep true d = (d, []) := by
  rw [dedupStep, if_pos rfl, if_neg (by omega)]

theorem dedupStep_result_nodup (d : Dataset) :
    dupRowCount (dedupStep true d).1.rows = 0 := by
  rw [dedupStep, if_pos rfl]
  by_cases hdc : dupRowCount d.rows > 0
  · rw [if_pos hdc]
    show dupRowCount (dedupFirst d.rows) = 0
    rw [dupRowCount, dedupFirst_idem]
    omega
  · rw [if_neg hdc]
    show dupRowCount d.rows = 0
    omega

theorem missingStep_none (threshold : ℚ) (d : Dataset) :
    missingStep ("none") threshold d = (d, []) := by
  rw [missingStep, if_neg (by decide), if_neg (by decide), if_neg (by decide),
    if_neg (by decide)]

theorem outlierStep_false (numericTypeCols : List String) (d : Dataset) :
    outlierStep false numericTypeCols d = (d, []) := by
  rw [outlierStep, if_neg (by decide)]

/-- C6: cleaning with remove_duplicates on, no missing-value strategy and
no outlier removal is idempotent: the second run in succession returns the
Dataset unchanged and its report records zero rows removed, zero columns
removed and no steps taken — in particular, zero duplicate rows removed. -/
theorem c6_dedup_cleaning_idempotent (ds : Dataset) (threshold : ℚ)
    (numericTypeCols : List String) :
    let run1 := cleanData true ("none") threshold false numericTypeCols ds
    let run2 := cleanData true ("none") threshold false numericTypeCols run1.1
    run2.1 = run1.1 ∧ run2.2.rows_removed = 0 ∧ run2.2.cols_removed = 0 ∧
      run2.2.steps_taken = [] := by
  intro run1 run2
  have key : ∀ d : Dataset, dupRowCount d.rows = 0 →
      cleanData true ("none") threshold false numericTypeCols d =
        (d, { original_rows := d.rows.length, original_cols := d.colNames.length,
              steps_taken := [], cleaned_rows := d.rows.length,
              cleaned_cols := d.colNames.length, rows_removed := 0,
              cols_removed := 0 }) := by
    intro d hd
    rw [cleanData]
    simp only [dedupStep_fixed d hd, missingStep_none, outlierStep_false]
    simp
  have hrun1 : run1.1 = (dedupStep true ds).1 := by
    show (cleanData true ("none") threshold false numericTypeCols ds).1 = _
    rw [cleanData]
    simp only [missingStep_none, outlierStep_false]
  have h1 : dupRowCount run1.1.rows = 0 := by
    rw [hrun1]
    exact dedupStep_result_nodup ds
  have h2 := key run1.1 h1
  refine ⟨?_, ?_, ?_, ?_⟩
  · show (cleanData true ("none") threshold false numericTypeCols run1.1).1 = run1.1
    rw [h2]
  · show (cleanData true ("none") threshold false numericTypeCols
      run1.1).2.rows_removed = 0
    rw [h2]
  · show (cleanData true ("none") threshold false numericTypeCols
      run1.1).2.cols_removed = 0
    rw [h2]
  · show (cleanData true ("none") threshold false numericTypeCols
      run1.1).2.steps_taken = []
    rw [h2]

/-- C9: every failing load (a raised parse or decode error — empty file,
undecodable encoding, unparseable delimiter — or a parsed frame that is
empty or has zero columns) reports a prefixed human-readable error message,
returns no frame, and leaves the processor state exactly as it was: no
dataset and no profile are published. -/
theorem c9_failing_load_preserves_state (st : ProcessorState)
    (inp : UploadOutcome)
    (hfail : (∃ msg, inp = UploadOutcome.parseFailure msg) ∨
      (∃ df, inp = UploadOutcome.parsed df ∧ df.isEmptyDf = true)) :
    ∃ cause, loadData st inp = (st, none, some (("Error loading CSV: ") ++ cause)) := by
  rcases hfail with ⟨msg, rfl⟩ | ⟨df, rfl, hempty⟩
  · exact ⟨msg, rfl⟩
  · refine ⟨("CSV file is empty"), ?_⟩
    rw [loadData]
    rw [if_pos hempty]

/-- C9, witness: loading a parsed empty frame (a zero-row upload) against a
fresh state reports the error and returns the state unchanged. -/
theorem c9_failing_load_witness :
    ((∃ msg, UploadOutcome.parsed c9EmptyDf = UploadOutcome.parseFailure msg) ∨
      (∃ df, UploadOutcome.parsed c9EmptyDf = UploadOutcome.parsed df ∧
        df.isEmptyDf = true)) ∧
    ∃ cause, loadData c9State (UploadOutcome.parsed c9EmptyDf) =
      (c9State, none, some (("Error loading CSV: ") ++ cause)) :=
  ⟨Or.inr ⟨c9EmptyDf, rfl, rfl⟩,
   c9_failing_load_preserves_state c9State _ (Or.inr ⟨c9EmptyDf, rfl, rfl⟩)⟩

/-- C10, witness: on the 10-row column with 4 nulls, five occurrences of
one value and one of another, the analyzer reports concentration 50; the
most common value covers 5 of the 6 non-null entries (more than 70 percent
of them) but only half of all rows, and no concentration-risk action is
emitted. -/
theorem c10_concentration_witness :
    catDistOf c10Cells = some c10Info ∧
    7 * ((c10Cells.length : ℚ) - (c10Cells.count none : ℚ)) <
      10 * (c10Info.most_common_count : ℚ) ∧
    10 * (c10Info.most_common_count : ℚ) ≤ 7 * (c10Cells.length : ℚ) ∧
    (c10Info.concentration =
        ((c10Info.most_common_count : ℚ) / (c10Cells.length : ℚ)) * 100 ∧
     (∀ w, (c10Cells.filterMap id).count w ≤ c10Info.most_common_count) ∧
     c10Info.concentration ≤
        (((c10Cells.length : ℚ) - (c10Cells.count none : ℚ)) /
          (c10Cells.length : ℚ)) * 100 ∧
     Action.mk ("Concentration Risk") Priority.high ∉ rule6ColActions c10Info) := by
  have hmc : mostCommon? (c10Cells.filterMap id) = some (("a"), 5) := by decide
  have hud : (dedupFirst (c10Cells.filterMap id)).length = 2 := by decide
  have hlen : c10Cells.length = 10 := rfl
  have hcnt : c10Cells.count none = 4 := by decide
  have heval : catDistOf c10Cells = some c10Info := by
    simp only [catDistOf, hmc, hud, hlen]
    norm_num [c10Info]
  have h1 : 7 * ((c10Cells.length : ℚ) - (c10Cells.count none : ℚ)) <
      10 * (c10Info.most_common_count : ℚ) := by
    rw [hlen, hcnt]
    norm_num [c10Info]
  have h2 : 10 * (c10Info.most_common_count : ℚ) ≤ 7 * (c10Cells.length : ℚ) := by
    rw [hlen]
    norm_num [c10Info]
  have hth := c10_concentration_over_all_rows c10Cells c10Info heval
  exact ⟨heval, h1, h2, hth.1, hth.2.1, hth.2.2.1, hth.2.2.2 h1 h2⟩

end ReportX
